import Mathlib

/-!
# Verification of the wing GCP table abstraction and permission binding

Shallow embedding of:
* `src/libs/wingsdk/src/shared-gcp/table.inflight.ts` — the runtime
  `TableClient` (insert/update/upsert/delete/get/tryGet/list) over an
  abstract Bigtable store,
* `src/libs/wingsdk/test/target-tf-gcp/functions.ts` — the tf-gcp `Table`
  construct (constructor, `bind`, role inference),
* `src/libs/wingsdk/src/target-tf-gcp/function.ts` — the tf-gcp `Function`
  construct's `addPermission` permission ledger.

The physical Bigtable backend is external to the repository; it is embedded
as a finite association map from row keys to rows, which is exactly the
interface the client code uses (`row(key).exists()`, `table.insert`,
`row.save(family, value)`, `row.delete()`, `row.get()`).
-/

set_option autoImplicit false

deriving instance DecidableEq for Except

namespace Wing

/-- A structured JSON-like value stored in a table cell. -/
inductive JVal where
  | str : String → JVal
  | num : Int → JVal
  | jbool : Bool → JVal
  | jnull : JVal
deriving DecidableEq, Repr

/-- A row: a JSON object, i.e. an association of field names to values.
JavaScript objects cannot repeat a key, so rows of interest have nodup
field names. -/
abbrev Row := List (String × JVal)

/-- The declared column(-family) schema: the list of declared column names
(the keys of the parsed `this.columns` JSON object). -/
abbrev Columns := List String

/-- The abstract Bigtable table: an association of row keys to rows. -/
abbrev Store := List (String × Row)

/-- First-match lookup in an association list (JS `Map.get` / keyed row
lookup in the backing store). -/
def mapGet {α : Type} (m : List (String × α)) (k : String) : Option α :=
  match m with
  | [] => none
  | (k2, v) :: rest => if k2 == k then some v else mapGet rest k

/-- Set a key to a value, replacing any previous entry for that key
(JS `Map.set` / the backend storing a row under its key). -/
def mapSet {α : Type} (m : List (String × α)) (k : String) (v : α) : List (String × α) :=
  (k, v) :: m.filter (fun p => p.fst != k)

/-- Remove the entry for a key (the backend `row.delete()`). -/
def mapRemove {α : Type} (m : List (String × α)) (k : String) : List (String × α) :=
  m.filter (fun p => p.fst != k)

/-- Assign a field of a row: replace the value if the field is present,
append it otherwise (JS object property assignment / Bigtable
`row.save`). -/
def setField (r : Row) (f : String) (v : JVal) : Row :=
  match r with
  | [] => [(f, v)]
  | (f2, v2) :: rest => if f2 == f then (f2, v) :: rest else (f2, v2) :: setField rest f v

/-- `column.split(':')[0]` from `TableClient.update`: the prefix of a column
name before its first `:` (the whole name if it has none). -/
def familyOf (column : String) : String :=
  String.mk (column.data.takeWhile (fun ch => ch != ':'))

/-- Errors thrown by the runtime table client. The code throws `Error`s with
distinguishing messages; the spec's taxonomy names them, and each carries the
offending field or key exactly as the thrown message does. -/
inductive TableError where
  | schemaValidation (field : String)
  | alreadyExists (key : String)
  | notFound (key : String)
deriving DecidableEq, Repr

/-- Modelled from the spec: `validateRow` lives in
`src/shared/table-utils`, which is not part of the provided sources. Per the
spec, "all rows written through the contract must validate against this
schema; attempts to write undeclared fields fail", with the error
"referencing" the undeclared field. This returns the first field of the row
that is not declared in the columns schema, if any. -/
def firstUndeclaredField (row : Row) (columns : Columns) : Option String :=
  match row with
  | [] => none
  | p :: rest =>
    if columns.contains p.fst then firstUndeclaredField rest columns
    else some p.fst

namespace TableClient

/-- `TableClient.insert`: validate the row, fail if the key already exists,
otherwise store the row under the key. -/
def insert (columns : Columns) (s : Store) (key : String) (row : Row) :
    Except TableError Store :=
  match firstUndeclaredField row columns with
  | some f => .error (.schemaValidation f)
  | none =>
    if (mapGet s key).isSome then
      .error (.alreadyExists key)
    else
      .ok (mapSet s key row)

/-- `TableClient.update`: validate the row, fail if the key is absent,
otherwise save each given field (keyed by its family, the part of the column
name before `:`) into the existing row. -/
def update (columns : Columns) (s : Store) (key : String) (row : Row) :
    Except TableError Store :=
  match firstUndeclaredField row columns with
  | some f => .error (.schemaValidation f)
  | none =>
    match mapGet s key with
    | none => .error (.notFound key)
    | some old =>
      .ok (mapSet s key
        (row.foldl (fun acc p => setField acc (familyOf p.fst) p.snd) old))

/-- `TableClient.upsert`: validate the row, then dispatch to `update` when
the key exists and to `insert` when it does not. -/
def upsert (columns : Columns) (s : Store) (key : String) (row : Row) :
    Except TableError Store :=
  match firstUndeclaredField row columns with
  | some f => .error (.schemaValidation f)
  | none =>
    if (mapGet s key).isSome then
      update columns s key row
    else
      insert columns s key row

/-- `TableClient.delete`: fail if the key is absent, otherwise remove the
row. -/
def delete (s : Store) (key : String) : Except TableError Store :=
  if (mapGet s key).isSome then
    .ok (mapRemove s key)
  else
    .error (.notFound key)

/-- `TableClient.get`: fail if the key is absent, otherwise return the
stored row. -/
def get (s : Store) (key : String) : Except TableError Row :=
  match mapGet s key with
  | none => .error (.notFound key)
  | some r => .ok r

/-- `TableClient.tryGet`: return the stored row, or `none` as the absent
marker; total, it can never throw. -/
def tryGet (s : Store) (key : String) : Option Row :=
  match mapGet s key with
  | none => none
  | some r => some r

/-- `TableClient.list`: all rows, in store order. -/
def list (s : Store) : List Row :=
  s.map (fun p => p.snd)

end TableClient

/-- The role strings of the `BigtablePermissions` enum. -/
def BigtablePermissions.READ : String := "roles/bigtable.viewer"

/-- The role strings of the `BigtablePermissions` enum. -/
def BigtablePermissions.READWRITE : String := "roles/bigtable.user"

/-- The table operation vocabulary (`ex.TableInflightMethods`), per the
spec: {get, tryGet, list, insert, update, upsert, delete}. -/
inductive TableOp where
  | opGet | opTryGet | opList | opInsert | opUpdate | opUpsert | opDelete
deriving DecidableEq, Repr

/-- The role-inference rule inlined in `Table.bind`: READWRITE when the ops
include DELETE, UPDATE or UPSERT, READ otherwise. -/
def inferPermission (ops : List TableOp) : String :=
  if ops.contains .opDelete || ops.contains .opUpdate || ops.contains .opUpsert then
    BigtablePermissions.READWRITE
  else
    BigtablePermissions.READ

/-- `ScopedRoleAssignment` from `target-tf-gcp/function.ts`. `Table.bind`
passes an object literal carrying only `roleDefinitionName`, so `scope` is
optional here. -/
structure ScopedRoleAssignment where
  scope : Option String := none
  roleDefinitionName : String
deriving DecidableEq, Repr

/-- JavaScript `String.prototype.substring(start)`: a negative start index
is clamped to 0, so `addr.substring(-8)` in `addPermission` returns the
whole string (unlike the `slice(-8)` used elsewhere in the file). -/
def jsSubstring (s : String) (start : Int) : String :=
  if start ≤ 0 then s else s.drop start.toNat

/-- The tf-gcp `Function` construct's permission-relevant state.

`permissions` is the `Map<string, Set<ScopedRoleAssignment>>`; JavaScript
`Set`s of objects compare by reference, so each stored assignment is
paired with the identity (`Nat`) of the object reference that was added.
`emitted` records each `CloudfunctionsFunctionIamPolicy` the construct has
created, as (construct id, role assignment). `nextRef` is the next fresh
object-reference identity. -/
structure GCPFunction where
  permissions : List (String × List (Nat × ScopedRoleAssignment)) := []
  emitted : List (String × ScopedRoleAssignment) := []
  nextRef : Nat := 0
deriving DecidableEq, Repr

/-- A freshly constructed tf-gcp `Function` (no permissions recorded yet). -/
def freshFunction : GCPFunction := ⟨[], [], 0⟩

/-- `Function.addPermission(resource, scopedRoleAssignment)`. `ref` is the
reference identity of the `ScopedRoleAssignment` object passed by the
caller; the `has` check of the JS `Set` succeeds only on that identity,
never on structural equality. When the check misses, the method emits a new
`FunctionIamPolicy-` IAM policy and records the assignment. -/
def addPermission (f : GCPFunction) (resourceAddr : String) (ref : Nat)
    (sra : ScopedRoleAssignment) : GCPFunction :=
  let uniqueId := jsSubstring resourceAddr (-8)
  let existing := (mapGet f.permissions uniqueId).getD []
  if existing.any (fun p => p.fst == ref) then
    f
  else
    { f with
      emitted := f.emitted ++ [("FunctionIamPolicy-" ++ uniqueId, sra)]
      permissions := mapSet f.permissions uniqueId (existing ++ [(ref, sra)]) }

/-- The possible consumers handed to `Table.bind`: a tf-gcp `Function`, or
any other inflight host (which the bind rejects). -/
inductive Host where
  | gcpFunction (f : GCPFunction)
  | other (kind : String)

/-- The error thrown by `Table.bind` for an illegal consumer type. -/
inductive BindError where
  | unsupportedBinding (msg : String)
deriving DecidableEq, Repr

namespace Table

/-- `Table.bind(host, ops)`: reject a host that is not a tf-gcp `Function`;
otherwise infer the role from this call's ops and pass a fresh
`ScopedRoleAssignment` object literal to `host.addPermission`. (The final
`super.bind(host, ops)` registers environment variables on the host and is
outside the provided sources; it does not touch the permission state.) -/
def bind (tableAddr : String) (host : Host) (ops : List TableOp) :
    Except BindError GCPFunction :=
  match host with
  | .other _ => .error (.unsupportedBinding "Table can only be bound by tfgcp.Function")
  | .gcpFunction f =>
    let sra : ScopedRoleAssignment := { roleDefinitionName := inferPermission ops }
    .ok (addPermission { f with nextRef := f.nextRef + 1 } tableAddr f.nextRef sra)

end Table

/-- The grants the ledger holds for a producer resource address: the
role assignments recorded in the function's permission map under that
resource's unique id. -/
def grantsFor (f : GCPFunction) (resourceAddr : String) : List ScopedRoleAssignment :=
  ((mapGet f.permissions (jsSubstring resourceAddr (-8))).getD []).map (fun p => p.snd)

/-- `ex.TableProps` as used by the tf-gcp `Table` constructor: the declared
columns and optional pre-seeded initial rows. -/
structure TableProps where
  columns : Columns := []
  initialRows : Option (List (String × Row)) := none

/-- The infrastructure template objects the tf-gcp `Table` constructor
emits. -/
inductive TfResource where
  | bigtableInstance (name : String)
  | bigtableTable (name : String) (columnFamilies : List String)
deriving DecidableEq, Repr

/-- The error thrown by the `Table` constructor when `initialRows` is set. -/
def initialRowsError : String :=
  "property initialRows is not supported for the GCP target"

/-- The tf-gcp `Table` constructor: throws when `props.initialRows` is set
(a JS object is truthy even when empty), before any template object is
created; otherwise emits the `BigtableInstance` and the `BigtableTable`
with one column family per declared column. -/
def tableConstructor (props : TableProps) (tableName instanceName : String) :
    Except String (List TfResource) :=
  if props.initialRows.isSome then
    .error initialRowsError
  else
    .ok [ .bigtableInstance instanceName,
          .bigtableTable tableName props.columns ]

/-- The row the spec's round-trip property expects `get` to return after
`upsert(k, r)`: the fields of `r` merged onto the prior row, fields of `r`
overriding. This is the spec-side notion, to be compared with what the
client's code path actually stores. -/
def mergeRow (r prior : Row) : Row :=
  r.foldl (fun acc p => setField acc p.fst p.snd) prior

/-- The READ role assignment object `Table.bind` passes for read-only ops. -/
def readAssignment : ScopedRoleAssignment :=
  { roleDefinitionName := BigtablePermissions.READ }

/-- The READWRITE role assignment object `Table.bind` passes for mutating
ops. -/
def readwriteAssignment : ScopedRoleAssignment :=
  { roleDefinitionName := BigtablePermissions.READWRITE }

/-- The grants recorded for a producer after a (possibly failed) bind
outcome: a failed bind records nothing. -/
def ledgerOf (r : Except BindError GCPFunction) (addr : String) :
    List ScopedRoleAssignment :=
  match r with
  | .ok f => grantsFor f addr
  | .error _ => []

/-- How many IAM policy template objects a (possibly failed) bind outcome
has emitted in total. -/
def emissionCount (r : Except BindError GCPFunction) : Nat :=
  match r with
  | .ok f => f.emitted.length
  | .error _ => 0

/-- Binding the same table twice to the same fresh function, both times
with operation set {get}. -/
def afterTwoGetBinds : Except BindError GCPFunction :=
  (Table.bind "tbl" (.gcpFunction freshFunction) [.opGet]).bind
    (fun f => Table.bind "tbl" (.gcpFunction f) [.opGet])

/-- Binding the same table to the same fresh function first with {get},
then with {update}. -/
def afterGetThenUpdateBinds : Except BindError GCPFunction :=
  (Table.bind "tbl" (.gcpFunction freshFunction) [.opGet]).bind
    (fun f => Table.bind "tbl" (.gcpFunction f) [.opUpdate])

/-- Binding a table to a fresh function with an empty operation set. -/
def emptyOpsBind : Except BindError GCPFunction :=
  Table.bind "tbl" (.gcpFunction freshFunction) []

/-- `insert("k", {col: 0})` followed by `insert("k", {val: 1})` on a schema
declaring only column `col`. -/
def insertInsertInvalidOutcome : Except TableError Store :=
  (TableClient.insert ["col"] [] "k" [("col", .num 0)]).bind
    (fun s1 => TableClient.insert ["col"] s1 "k" [("val", .num 1)])

/-- `upsert("k", {"a:b": 1})` on a schema declaring column `a:b`, over a
store whose row "k" is `{"a:b": 0}`, followed by `get("k")`. -/
def colonFieldRoundTrip : Except TableError Row :=
  (TableClient.upsert ["a:b"] [("k", [("a:b", .num 0)])] "k" [("a:b", .num 1)]).bind
    (fun s2 => TableClient.get s2 "k")

/-! ## Helper lemmas about the association-map and row primitives -/

theorem jsSubstring_neg8 (s : String) : jsSubstring s (-8) = s := by
  unfold jsSubstring
  rw [if_pos (by decide : (-8 : Int) ≤ 0)]

theorem mapGet_mapSet {α : Type} (m : List (String × α)) (k : String) (v : α) :
    mapGet (mapSet m k v) k = some v := by
  simp [mapGet, mapSet]

theorem mapGet_mapRemove {α : Type} (m : List (String × α)) (k : String) :
    mapGet (mapRemove m k) k = none := by
  induction m with
  | nil => rfl
  | cons p rest ih =>
    by_cases h : p.fst = k
    · simpa [mapRemove, List.filter_cons, h] using ih
    · simpa [mapRemove, List.filter_cons, h, mapGet] using ih

theorem setField_not_mem (acc : Row) (f : String) (v : JVal)
    (h : f ∉ acc.map Prod.fst) : setField acc f v = acc ++ [(f, v)] := by
  induction acc with
  | nil => rfl
  | cons p rest ih =>
    simp only [List.map_cons, List.mem_cons, not_or] at h
    obtain ⟨h1, h2⟩ := h
    have hb : (p.fst == f) = false := by
      simp [Ne.symm h1]
    simp [setField, hb, ih h2]

theorem foldl_setField_append (r : Row) : ∀ acc : Row,
    (∀ p ∈ r, p.fst ∉ acc.map Prod.fst) → (r.map Prod.fst).Nodup →
    r.foldl (fun a p => setField a p.fst p.snd) acc = acc ++ r := by
  induction r with
  | nil => intro acc _ _; simp
  | cons q rest ih =>
    intro acc hdisj hnd
    simp only [List.map_cons, List.nodup_cons] at hnd
    simp only [List.foldl_cons]
    rw [setField_not_mem acc q.fst q.snd (hdisj q (by simp))]
    rw [ih (acc ++ [q]) ?_ hnd.2]
    · simp
    · intro p hp
      simp only [List.map_append, List.map_cons, List.map_nil, List.mem_append,
        List.mem_singleton, not_or]
      refine ⟨hdisj p (by simp [hp]), ?_⟩
      intro hqp
      exact hnd.1 (hqp ▸ List.mem_map_of_mem Prod.fst hp)

theorem mergeRow_nil (r : Row) (h : (r.map Prod.fst).Nodup) : mergeRow r [] = r := by
  simpa [mergeRow] using foldl_setField_append r [] (by simp) h

theorem firstUndeclaredField_spec (columns : Columns) :
    ∀ (row : Row) (f : String), firstUndeclaredField row columns = some f →
    f ∉ columns ∧ f ∈ row.map Prod.fst := by
  intro row
  induction row with
  | nil => intro f hf; exact absurd hf (by simp [firstUndeclaredField])
  | cons p rest ih =>
    intro f hf
    unfold firstUndeclaredField at hf
    by_cases hc : columns.contains p.fst = true
    · rw [if_pos hc] at hf
      obtain ⟨h1, h2⟩ := ih f hf
      exact ⟨h1, by simp [h2]⟩
    · have hcf : columns.contains p.fst = false := Bool.eq_false_iff.mpr hc
      rw [if_neg (by rw [hcf]; decide)] at hf
      have hf2 : p.fst = f := by simpa using hf
      subst hf2
      refine ⟨?_, by simp⟩
      simpa using hcf

theorem foldl_family_congr (r : Row) : ∀ acc : Row,
    (∀ p ∈ r, familyOf p.fst = p.fst) →
    r.foldl (fun a p => setField a (familyOf p.fst) p.snd) acc = mergeRow r acc := by
  induction r with
  | nil => intro acc _; rfl
  | cons q rest ih =>
    intro acc h
    simp only [mergeRow, List.foldl_cons]
    rw [h q (by simp)]
    exact ih (setField acc q.fst q.snd) (fun p hp => h p (by simp [hp]))

/-! ## The claims -/

/-- C3: the role `Table.bind` infers from an operation set is READWRITE
exactly when the set contains at least one of delete, update and upsert,
and READ otherwise; the mapping is total and two-valued over the table
operation vocabulary. -/
theorem inferPermission_readwrite_iff (ops : List TableOp) :
    (inferPermission ops = BigtablePermissions.READWRITE ↔
      (TableOp.opDelete ∈ ops ∨ TableOp.opUpdate ∈ ops ∨ TableOp.opUpsert ∈ ops)) ∧
    (inferPermission ops = BigtablePermissions.READ ↔
      ¬(TableOp.opDelete ∈ ops ∨ TableOp.opUpdate ∈ ops ∨ TableOp.opUpsert ∈ ops)) := by
  have hne : BigtablePermissions.READ ≠ BigtablePermissions.READWRITE := by decide
  have hc : (ops.contains TableOp.opDelete || ops.contains TableOp.opUpdate ||
      ops.contains TableOp.opUpsert) = true ↔
      (TableOp.opDelete ∈ ops ∨ TableOp.opUpdate ∈ ops ∨ TableOp.opUpsert ∈ ops) := by
    simp [or_assoc]
  by_cases h : TableOp.opDelete ∈ ops ∨ TableOp.opUpdate ∈ ops ∨ TableOp.opUpsert ∈ ops
  · have hrw : inferPermission ops = BigtablePermissions.READWRITE := by
      unfold inferPermission
      rw [if_pos (hc.mpr h)]
    simp [hrw, h, hne.symm]
  · have hr : inferPermission ops = BigtablePermissions.READ := by
      unfold inferPermission
      rw [if_neg (fun hcc => h (hc.mp hcc))]
    simp [hr, h, hne]

/-- C1: binding the same table twice with the same operation set {get}
records two structurally equal READ grants for the same
(producer, principal, role) triple and emits two IAM policy template
objects. The reference-equality `Set.has` check in `addPermission` never
matches the fresh `ScopedRoleAssignment` object literal `Table.bind`
allocates per call, so the `// already exists` early return is dead for
bind-driven declarations and the re-declared binding is not a no-op. -/
theorem bind_twice_same_ops_duplicates_grant :
    ledgerOf afterTwoGetBinds "tbl" = [readAssignment, readAssignment] ∧
    emissionCount afterTwoGetBinds = 2 := by
  constructor <;> rfl

/-- C2 counterexample: after binding with {get} and then with {update}, the
ledger entry for (table, function) holds the READ grant next to the
READWRITE grant — it is not the claimed singleton READWRITE ledger, the
READ grant is not superseded. -/
theorem readGrant_not_superseded :
    ledgerOf afterGetThenUpdateBinds "tbl" = [readAssignment, readwriteAssignment] ∧
    ledgerOf afterGetThenUpdateBinds "tbl" ≠ [readwriteAssignment] := by
  constructor
  · rfl
  · decide

/-- C2 (amended): each bind call appends one grant at the role inferred
from that call's operation set alone; a grant recorded by an earlier bind
at a lower role remains in the ledger alongside the later higher-role
grant. -/
theorem bind_accumulates_roles (addr : String) (ops1 ops2 : List TableOp) :
    ledgerOf ((Table.bind addr (.gcpFunction freshFunction) ops1).bind
        (fun f => Table.bind addr (.gcpFunction f) ops2)) addr =
      [ { roleDefinitionName := inferPermission ops1 },
        { roleDefinitionName := inferPermission ops2 } ] := by
  simp [Table.bind, addPermission, freshFunction, ledgerOf, grantsFor,
    jsSubstring_neg8, mapGet, mapSet, Except.bind]

/-- C9 counterexample: a bind with an empty operation set is not rejected:
the call succeeds, records a READ grant in the ledger and emits an IAM
policy template object. -/
theorem emptyOps_bind_not_rejected :
    emptyOpsBind =
      .ok ⟨[("tbl", [(0, readAssignment)])],
           [("FunctionIamPolicy-tbl", readAssignment)], 1⟩ ∧
    ledgerOf emptyOpsBind "tbl" = [readAssignment] := by
  constructor <;> rfl

/-- C9 (amended): `Table.bind` eagerly validates only the consumer type: a
host that is not a tf-gcp Function is rejected at call time with no grant
recorded, while an empty operation set is accepted and records a READ
grant. -/
theorem bind_validates_host_type_only (addr kind : String) (ops : List TableOp) :
    Table.bind addr (.other kind) ops =
      .error (.unsupportedBinding "Table can only be bound by tfgcp.Function") ∧
    ledgerOf (Table.bind addr (.other kind) ops) addr = [] ∧
    ledgerOf (Table.bind addr (.gcpFunction freshFunction) []) addr =
      [readAssignment] := by
  refine ⟨rfl, rfl, ?_⟩
  simp [Table.bind, addPermission, freshFunction, ledgerOf, grantsFor,
    jsSubstring_neg8, mapGet, mapSet, inferPermission, readAssignment]

/-- C4 counterexample: with column `a:b` declared, upserting
`{"a:b": 1}` over an existing row `{"a:b": 0}` takes the update path, which
saves the value under the family `a` (the part of the field name before
`:`); the subsequent get returns `{"a:b": 0, "a": 1}`, not the fields of
the upserted row merged onto the prior state. -/
theorem colon_field_breaks_roundtrip :
    colonFieldRoundTrip = .ok [("a:b", JVal.num 0), ("a", JVal.num 1)] ∧
    colonFieldRoundTrip ≠
      .ok (mergeRow [("a:b", JVal.num 1)] [("a:b", JVal.num 0)]) := by
  constructor
  · rfl
  · decide

/-- C4 (amended): for a schema-valid row (a JSON object, so its field names
are distinct) whose field names contain no `:`, a successful
`upsert(k, r)` followed by `get(k)` returns exactly the fields of `r`
merged onto the prior row for `k` (just `r` when `k` was new). -/
theorem upsert_get_roundtrip (columns : Columns) (s : Store) (k : String)
    (r : Row) (s2 : Store)
    (hnodup : (r.map Prod.fst).Nodup)
    (hnc : ∀ p ∈ r, familyOf p.fst = p.fst)
    (hok : TableClient.upsert columns s k r = .ok s2) :
    TableClient.get s2 k = .ok (mergeRow r ((mapGet s k).getD [])) := by
  unfold TableClient.upsert at hok
  cases hval : firstUndeclaredField r columns with
  | some f => rw [hval] at hok; exact absurd hok (by simp)
  | none =>
    rw [hval] at hok
    cases hmg : mapGet s k with
    | some old =>
      rw [hmg] at hok
      simp only [Option.isSome_some, if_true] at hok
      unfold TableClient.update at hok
      rw [hval, hmg] at hok
      simp only [Except.ok.injEq] at hok
      subst hok
      unfold TableClient.get
      rw [mapGet_mapSet]
      rw [foldl_family_congr r old hnc]
      simp [hmg]
    | none =>
      rw [hmg] at hok
      simp only [Option.isSome_none, Bool.false_eq_true, if_false] at hok
      unfold TableClient.insert at hok
      rw [hval, hmg] at hok
      simp only [Option.isSome_none, Bool.false_eq_true, if_false,
        Except.ok.injEq] at hok
      subst hok
      unfold TableClient.get
      rw [mapGet_mapSet]
      simp [hmg, mergeRow_nil r hnodup]

/-- C4 witness. -/
theorem upsert_get_roundtrip_witness :
    TableClient.get [("k", [("a", JVal.num 1)])] "k" =
      .ok (mergeRow [("a", JVal.num 1)] ((mapGet ([] : Store) "k").getD [])) :=
  upsert_get_roundtrip ["a"] [] "k" [("a", JVal.num 1)]
    [("k", [("a", JVal.num 1)])] (by decide) (by decide) (by decide)

/-- C5 counterexample: after a successful `insert("k", {col: 0})`, a second
`insert("k", {val: 1})` whose row has an undeclared field fails with the
schema-validation error, not the already-exists error, because validation
runs before the key-existence check. -/
theorem second_insert_invalid_row_error :
    insertInsertInvalidOutcome = .error (.schemaValidation "val") ∧
    insertInsertInvalidOutcome ≠ .error (.alreadyExists "k") := by
  constructor
  · rfl
  · decide

/-- C5 (amended): after a successful `insert(k, r)`, a second
`insert(k, r2)` with a schema-valid `r2` fails with the already-exists
error and the stored row for `k` remains `r`; a schema-invalid `r2` fails
with the schema-validation error instead. Either failure throws before the
mutating call, so the table state is unchanged. -/
theorem insert_insert_conflict (columns : Columns) (s : Store) (k : String)
    (r r2 : Row) (s2 : Store)
    (hok : TableClient.insert columns s k r = .ok s2)
    (hval : firstUndeclaredField r2 columns = none) :
    TableClient.insert columns s2 k r2 = .error (.alreadyExists k) ∧
    mapGet s2 k = some r := by
  unfold TableClient.insert at hok
  cases hv : firstUndeclaredField r columns with
  | some f => rw [hv] at hok; exact absurd hok (by simp)
  | none =>
    rw [hv] at hok
    by_cases hex : (mapGet s k).isSome
    · rw [if_pos hex] at hok; exact absurd hok (by simp)
    · rw [if_neg hex] at hok
      simp only [Except.ok.injEq] at hok
      subst hok
      have hstored : mapGet (mapSet s k r) k = some r := mapGet_mapSet s k r
      refine ⟨?_, hstored⟩
      unfold TableClient.insert
      rw [hval, hstored]
      rfl

/-- C5 witness. -/
theorem insert_insert_conflict_witness :
    TableClient.insert ["col"] [("k", [("col", JVal.num 0)])] "k"
        [("col", JVal.num 1)] = .error (.alreadyExists "k") ∧
    mapGet [("k", [("col", JVal.num 0)])] "k" = some [("col", JVal.num 0)] :=
  insert_insert_conflict ["col"] [] "k" [("col", JVal.num 0)]
    [("col", JVal.num 1)] [("k", [("col", JVal.num 0)])] (by decide) (by decide)

/-- C6: after a successful `delete(k)`, `get(k)` fails with the not-found
error, and `tryGet(k)` returns `none`, the absent marker, without failing
(`tryGet` is total: its return type has no error outcome). -/
theorem delete_then_get_tryGet (s : Store) (k : String) (s2 : Store)
    (h : TableClient.delete s k = .ok s2) :
    TableClient.get s2 k = .error (.notFound k) ∧
    TableClient.tryGet s2 k = none := by
  unfold TableClient.delete at h
  by_cases hex : (mapGet s k).isSome
  · rw [if_pos hex] at h
    simp only [Except.ok.injEq] at h
    subst h
    have hnone : mapGet (mapRemove s k) k = none := mapGet_mapRemove s k
    constructor
    · unfold TableClient.get; rw [hnone]
    · unfold TableClient.tryGet; rw [hnone]
  · rw [if_neg hex] at h; exact absurd h (by simp)

/-- C6 witness. -/
theorem delete_then_get_tryGet_witness :
    TableClient.get ([] : Store) "k" = .error (.notFound "k") ∧
    TableClient.tryGet ([] : Store) "k" = none :=
  delete_then_get_tryGet [("k", [("col", JVal.num 1)])] "k" [] (by decide)

/-- C7: when a row carries a field `f` that the column schema does not
declare, all three write operations fail with the schema-validation error
naming `f` — `f` is genuinely one of the row's fields and is not among the
declared columns — and, the throw sitting before the mutating call in each
operation, no row is written. -/
theorem undeclared_field_write_fails (columns : Columns) (s : Store)
    (k : String) (row : Row) (f : String)
    (hf : firstUndeclaredField row columns = some f) :
    f ∉ columns ∧ f ∈ row.map Prod.fst ∧
    TableClient.insert columns s k row = .error (.schemaValidation f) ∧
    TableClient.update columns s k row = .error (.schemaValidation f) ∧
    TableClient.upsert columns s k row = .error (.schemaValidation f) := by
  obtain ⟨h1, h2⟩ := firstUndeclaredField_spec columns row f hf
  refine ⟨h1, h2, ?_, ?_, ?_⟩
  · unfold TableClient.insert; rw [hf]
  · unfold TableClient.update; rw [hf]
  · unfold TableClient.upsert; rw [hf]

/-- C7 witness: the spec's scenario, `insert("row1", {col: "a", val: 1})`
on a schema declaring only `col`. -/
theorem undeclared_field_write_fails_witness :
    "val" ∉ (["col"] : Columns) ∧
    "val" ∈ ([("col", JVal.str "a"), ("val", JVal.num 1)] : Row).map Prod.fst ∧
    TableClient.insert ["col"] [] "row1" [("col", JVal.str "a"), ("val", JVal.num 1)] =
      .error (.schemaValidation "val") ∧
    TableClient.update ["col"] [] "row1" [("col", JVal.str "a"), ("val", JVal.num 1)] =
      .error (.schemaValidation "val") ∧
    TableClient.upsert ["col"] [] "row1" [("col", JVal.str "a"), ("val", JVal.num 1)] =
      .error (.schemaValidation "val") :=
  undeclared_field_write_fails ["col"] [] "row1"
    [("col", JVal.str "a"), ("val", JVal.num 1)] "val" (by decide)

/-- C8: a tf-gcp table whose props request pre-seeded initial rows fails at
construction time with the initial-rows-unsupported error; the throw sits
before any template object is created, so the error outcome carries no
partial template and is not a silent no-op. -/
theorem initial_rows_unsupported (props : TableProps)
    (tableName instanceName : String) (rows : List (String × Row))
    (hrows : props.initialRows = some rows) :
    tableConstructor props tableName instanceName = .error initialRowsError := by
  unfold tableConstructor
  rw [if_pos (by simp [hrows])]

/-- C8 witness. -/
theorem initial_rows_unsupported_witness :
    tableConstructor ⟨["col"], some []⟩ "tbl" "inst" = .error initialRowsError :=
  initial_rows_unsupported ⟨["col"], some []⟩ "tbl" "inst" [] rfl

/-- C10: each write operation validates the row before its key-existence
check (and before any mutating call): on a schema-invalid row, insert on an
existing key reports the schema-validation error, not the already-exists
error, update on an absent key reports it instead of the not-found error,
and upsert reports it for both kinds of key. -/
theorem validation_precedes_existence_check (columns : Columns) (s : Store)
    (kPresent kAbsent : String) (row : Row) (f : String) (r0 : Row)
    (hf : firstUndeclaredField row columns = some f)
    (_hex : mapGet s kPresent = some r0)
    (_habs : mapGet s kAbsent = none) :
    TableClient.insert columns s kPresent row = .error (.schemaValidation f) ∧
    TableClient.insert columns s kPresent row ≠ .error (.alreadyExists kPresent) ∧
    TableClient.update columns s kAbsent row = .error (.schemaValidation f) ∧
    TableClient.update columns s kAbsent row ≠ .error (.notFound kAbsent) ∧
    TableClient.upsert columns s kPresent row = .error (.schemaValidation f) ∧
    TableClient.upsert columns s kAbsent row = .error (.schemaValidation f) := by
  have hins : TableClient.insert columns s kPresent row =
      .error (.schemaValidation f) := by
    unfold TableClient.insert; rw [hf]
  have hupd : TableClient.update columns s kAbsent row =
      .error (.schemaValidation f) := by
    unfold TableClient.update; rw [hf]
  refine ⟨hins, ?_, hupd, ?_, ?_, ?_⟩
  · rw [hins]; simp
  · rw [hupd]; simp
  · unfold TableClient.upsert; rw [hf]
  · unfold TableClient.upsert; rw [hf]

/-- C10 witness: inserting the schema-invalid row `{val: 1}` on the
existing key `k` reports the schema error, not the already-exists error. -/
theorem validation_precedes_existence_check_witness :
    TableClient.insert ["col"] [("k", [("col", JVal.num 0)])] "k"
        [("val", JVal.num 1)] = .error (.schemaValidation "val") ∧
    TableClient.insert ["col"] [("k", [("col", JVal.num 0)])] "k"
        [("val", JVal.num 1)] ≠ .error (.alreadyExists "k") ∧
    TableClient.update ["col"] [("k", [("col", JVal.num 0)])] "x"
        [("val", JVal.num 1)] = .error (.schemaValidation "val") ∧
    TableClient.update ["col"] [("k", [("col", JVal.num 0)])] "x"
        [("val", JVal.num 1)] ≠ .error (.notFound "x") ∧
    TableClient.upsert ["col"] [("k", [("col", JVal.num 0)])] "k"
        [("val", JVal.num 1)] = .error (.schemaValidation "val") ∧
    TableClient.upsert ["col"] [("k", [("col", JVal.num 0)])] "x"
        [("val", JVal.num 1)] = .error (.schemaValidation "val") :=
  validation_precedes_existence_check ["col"] [("k", [("col", JVal.num 0)])]
    "k" "x" [("val", JVal.num 1)] "val" [("col", JVal.num 0)]
    (by decide) (by decide) (by decide)

end Wing
